import Mathlib

/-!
Shallow embedding of `src/flow_log_parser.py`.

The program loads a lookup table mapping `(dstport, protocol)` keys to lists
of tags, classifies flow-log records against it, accumulates two frequency
tables, and serializes a sorted report.

Python strings are modelled by `String`; the string helpers used by the code
(`str.strip`, `str.lower`, `str.split(',')`, `str.split()`) are implemented
structurally over `String.data` so that the kernel can evaluate them on
concrete inputs.  Python `dict` (and `defaultdict`) values are modelled by
association lists in insertion order, which is exactly the observable
behaviour of CPython dicts.  A Python `ValueError` (raised by the unpacking
`dstport, protocol, tag = [...]` when the list does not have three elements)
is modelled by `Except.error ()`.
-/

/-- Strip of leading and trailing whitespace on a character list,
modelling Python `str.strip()`. -/
def stripL (l : List Char) : List Char :=
  ((l.dropWhile Char.isWhitespace).reverse.dropWhile Char.isWhitespace).reverse

/-- Python `str.strip()`. -/
def strip (s : String) : String :=
  ⟨stripL s.data⟩

/-- Python `str.lower()` (ASCII case folding). -/
def lower (s : String) : String :=
  ⟨s.data.map Char.toLower⟩

/-- Auxiliary for `splitComma`: splits a character list at every comma,
keeping empty chunks, with `acc` the reversed current chunk. -/
def splitCommaAux : List Char → List Char → List (List Char)
  | [], acc => [acc.reverse]
  | c :: cs, acc =>
      if c = ',' then acc.reverse :: splitCommaAux cs [] else splitCommaAux cs (c :: acc)

/-- Python `line.split(',')`. -/
def splitComma (s : String) : List String :=
  (splitCommaAux s.data []).map (fun l => ⟨l⟩)

/-- Auxiliary for `pySplit`: splits a character list on runs of whitespace,
dropping empty chunks, with `acc` the reversed current chunk. -/
def wsSplitAux : List Char → List Char → List (List Char)
  | [], acc => if acc.isEmpty then [] else [acc.reverse]
  | c :: cs, acc =>
      if c.isWhitespace then
        if acc.isEmpty then wsSplitAux cs [] else acc.reverse :: wsSplitAux cs []
      else wsSplitAux cs (c :: acc)

/-- Python `line.split()` with no argument: split on runs of whitespace,
no empty fields, leading and trailing whitespace ignored. -/
def pySplit (s : String) : List String :=
  (wsSplitAux s.data []).map (fun l => ⟨l⟩)

/-- Keys of the lookup table: `(dstport, protocol)` pairs of strings. -/
abbrev Key := String × String

/-- The lookup table: `defaultdict(list)` keyed by `(dstport, protocol)`,
modelled as an association list in key-insertion order. -/
abbrev LookupTable := List (Key × List String)

/-- Appends `t` to the list stored at key `k`, creating the key at the end
when absent: the effect of `lookup_dict[(dstport, protocol)].append(tag)` on a
`defaultdict(list)`. -/
def insertTag : LookupTable → Key → String → LookupTable
  | [], k, t => [(k, [t])]
  | (k', ts) :: rest, k, t =>
      if k' = k then (k', ts ++ [t]) :: rest else (k', ts) :: insertTag rest k t

/-- Reads a key from the lookup table: `lookup_dict.get(key)` returning
`none` when the key is absent. -/
def lookupGet : LookupTable → Key → Option (List String)
  | [], _ => none
  | (k', ts) :: rest, k => if k' = k then some ts else lookupGet rest k

/-- Outcome of processing one lookup-table line inside `load_lookup_table`:
skipped, a parsed entry, or a `ValueError` from tuple unpacking. -/
inductive LineResult : Type where
  | skip : LineResult
  | entry : Key → String → LineResult
  | err : LineResult
deriving DecidableEq

/-- One iteration of the loop body of `load_lookup_table`: strip the line,
skip it when empty or comma-free, otherwise split on commas, strip and
lowercase each field, and unpack into exactly three fields (anything else
raises `ValueError`, modelled by `.err`). -/
def parseLookupLine (line : String) : LineResult :=
  let l := strip line
  if l = "" then .skip
  else if ¬ l.data.contains ',' then .skip
  else
    match (splitComma l).map (fun item => lower (strip item)) with
    | [dstport, protocol, tag] => .entry (dstport, protocol) tag
    | _ => .err

/-- The loop of `load_lookup_table`, threading the table being built. -/
def loadAux : List String → LookupTable → Except Unit LookupTable
  | [], tbl => .ok tbl
  | line :: rest, tbl =>
      match parseLookupLine line with
      | .skip => loadAux rest tbl
      | .entry k t => loadAux rest (insertTag tbl k t)
      | .err => .error ()

/-- Python `load_lookup_table`, on the file's list of lines. -/
def load_lookup_table (lines : List String) : Except Unit LookupTable :=
  loadAux lines []

/-- The protocol-number resolution on line 57 of the source:
`"tcp" if protocol_num == "6" else "udp" if protocol_num == "17" else "icmp"`. -/
def resolveProtocol (protocol_num : String) : String :=
  if protocol_num = "6" then "tcp" else if protocol_num = "17" then "udp" else "icmp"

/-- Increment of a `defaultdict(int)` entry, `counts[k] += 1`: the missing
key defaults to `0`, so a new key is appended with count `1`. -/
def incr {α : Type} [DecidableEq α] : List (α × Nat) → α → List (α × Nat)
  | [], k => [(k, 1)]
  | (k', c) :: rest, k =>
      if k' = k then (k', c + 1) :: rest else (k', c) :: incr rest k

/-- Reads a count table at a key, `0` when absent. -/
def countOf {α : Type} [DecidableEq α] : List (α × Nat) → α → Nat
  | [], _ => 0
  | (k', c) :: rest, k => if k' = k then c else countOf rest k

/-- Total number of increments recorded in a count table. -/
def sumCounts {α : Type} (m : List (α × Nat)) : Nat :=
  (m.map (fun e => e.2)).sum

/-- The mutable state of the loop of `parse_flow_logs`: the two frequency
tables plus the diagnostic records emitted through `logging.info`. -/
structure FlowState : Type where
  tag_counts : List (String × Nat)
  port_protocol_counts : List (Key × Nat)
  log : List String
deriving DecidableEq

/-- One iteration of the loop body of `parse_flow_logs`: strip the line,
skip it when empty or shorter than 14 whitespace-separated fields, otherwise
extract `fields[4]` and `fields[6]`, resolve the protocol, fetch the tag list
(defaulting to `["Untagged"]`), bump the tag table once per tag, bump the
port/protocol table once, and at verbosity at least 2 emit a diagnostic. -/
def stepFlow (lookup_dict : LookupTable) (verbosity : Nat) (st : FlowState)
    (line : String) : FlowState :=
  let l := strip line
  if l = "" then st
  else
    let fields := pySplit l
    if fields.length < 14 then st
    else
      let dstport := fields.getD 4 ""
      let protocol_num := fields.getD 6 ""
      let protocol := resolveProtocol protocol_num
      let tags := (lookupGet lookup_dict (dstport, protocol)).getD ["Untagged"]
      let tag_counts := tags.foldl (fun m t => incr m t) st.tag_counts
      let port_protocol_counts := incr st.port_protocol_counts (dstport, protocol)
      let log :=
        if 2 ≤ verbosity then
          st.log ++ ["Processed line with port: " ++ dstport ++ ", protocol: " ++
            protocol ++ ", tags: " ++ String.intercalate ", " tags]
        else st.log
      ⟨tag_counts, port_protocol_counts, log⟩

/-- Python `parse_flow_logs`, on the file's list of lines: returns the pair
of frequency tables (the function's return value; the log is internal). -/
def parse_flow_logs (lines : List String) (lookup_dict : LookupTable)
    (verbosity : Nat) : List (String × Nat) × List (Key × Nat) :=
  let st := lines.foldl (stepFlow lookup_dict verbosity) ⟨[], [], []⟩
  (st.tag_counts, st.port_protocol_counts)

/-- Python tuple comparison on `(tag, count)` items, as used by
`sorted(tag_counts.items())`: lexicographic on the pair. -/
def tagLe (a b : String × Nat) : Prop :=
  toLex a ≤ toLex b

/-- Python tuple comparison on `((port, protocol), count)` items, as used by
`sorted(port_protocol_counts.items())`: lexicographic, with the key itself
compared lexicographically. -/
def ppLe (a b : Key × Nat) : Prop :=
  toLex (toLex a.1, a.2) ≤ toLex (toLex b.1, b.2)

instance : DecidableRel tagLe :=
  fun a b => inferInstanceAs (Decidable (toLex a ≤ toLex b))

instance : DecidableRel ppLe :=
  fun a b => inferInstanceAs (Decidable (toLex (toLex a.1, a.2) ≤ toLex (toLex b.1, b.2)))

instance : IsTotal (String × Nat) tagLe :=
  ⟨fun a b => le_total (toLex a) (toLex b)⟩

instance : IsTrans (String × Nat) tagLe :=
  ⟨fun _ _ _ h h' => le_trans (a := toLex _) h h'⟩

instance : IsTotal (Key × Nat) ppLe :=
  ⟨fun a b => le_total (toLex (toLex a.1, a.2)) (toLex (toLex b.1, b.2))⟩

instance : IsTrans (Key × Nat) ppLe :=
  ⟨fun _ _ _ h h' => le_trans (a := toLex (toLex _, _)) h h'⟩

/-- Rendering of one line of the tag section: `f"{tag},{count}"`. -/
def renderTagRow (e : String × Nat) : String :=
  e.1 ++ "," ++ toString e.2

/-- Rendering of one line of the port/protocol section:
`f"{port},{protocol},{count}"`. -/
def renderPPRow (e : Key × Nat) : String :=
  e.1.1 ++ "," ++ e.1.2 ++ "," ++ toString e.2

/-- Python `save_results`, as the list of lines written to the output file:
headers, the tag items sorted by Python tuple comparison, a blank line, then
the port/protocol items sorted likewise.  Python `sorted` is a stable sort;
insertion sort is stable as well. -/
def save_results (tag_counts : List (String × Nat))
    (port_protocol_counts : List (Key × Nat)) : List String :=
  ["Tag Counts:", "Tag,Count"]
    ++ (List.insertionSort tagLe tag_counts).map renderTagRow
    ++ ["", "Port/Protocol Combination Counts:", "Port,Protocol,Count"]
    ++ (List.insertionSort ppLe port_protocol_counts).map renderPPRow

/-- Destination port of a classified record: `fields[4]`. -/
def recPort (line : String) : String :=
  (pySplit (strip line)).getD 4 ""

/-- Resolved protocol of a classified record: the mapping applied to
`fields[6]`. -/
def recProto (line : String) : String :=
  resolveProtocol ((pySplit (strip line)).getD 6 "")

/-- Lookup key of a classified record. -/
def recKey (line : String) : Key :=
  (recPort line, recProto line)

/-- Resolved tag list of a classified record:
`lookup_dict.get((dstport, protocol), ["Untagged"])`. -/
def recTags (lookup_dict : LookupTable) (line : String) : List String :=
  (lookupGet lookup_dict (recKey line)).getD ["Untagged"]

/-- Diagnostic record emitted at verbosity 2 for a classified record. -/
def logMsg (lookup_dict : LookupTable) (line : String) : String :=
  "Processed line with port: " ++ recPort line ++ ", protocol: " ++ recProto line ++
    ", tags: " ++ String.intercalate ", " (recTags lookup_dict line)

theorem stepFlow_skip (lookup_dict : LookupTable) (verbosity : Nat) (st : FlowState)
    (line : String)
    (h : strip line = "" ∨ (pySplit (strip line)).length < 14) :
    stepFlow lookup_dict verbosity st line = st := by
  rcases h with h | h
  · simp [stepFlow, h]
  · by_cases h1 : strip line = ""
    · simp [stepFlow, h1]
    · simp [stepFlow, h1, h]

theorem stepFlow_classified (lookup_dict : LookupTable) (verbosity : Nat) (st : FlowState)
    (line : String)
    (h1 : ¬ strip line = "") (h2 : ¬ (pySplit (strip line)).length < 14) :
    stepFlow lookup_dict verbosity st line =
      ⟨(recTags lookup_dict line).foldl (fun m t => incr m t) st.tag_counts,
       incr st.port_protocol_counts (recKey line),
       if 2 ≤ verbosity then st.log ++ [logMsg lookup_dict line] else st.log⟩ := by
  simp [stepFlow, h1, h2, recTags, recKey, recPort, recProto, logMsg]

theorem sumCounts_nil {α : Type} : sumCounts ([] : List (α × Nat)) = 0 := rfl

theorem sumCounts_cons {α : Type} (e : α × Nat) (m : List (α × Nat)) :
    sumCounts (e :: m) = e.2 + sumCounts m := by
  simp [sumCounts]

theorem sumCounts_incr {α : Type} [DecidableEq α] (m : List (α × Nat)) (k : α) :
    sumCounts (incr m k) = sumCounts m + 1 := by
  induction m with
  | nil => simp [incr, sumCounts]
  | cons e rest ih =>
      obtain ⟨k', c⟩ := e
      by_cases h : k' = k
      · simp [incr, h, sumCounts_cons]
        omega
      · simp [incr, h, sumCounts_cons, ih]
        omega

theorem sumCounts_foldl_incr {α : Type} [DecidableEq α] (l : List α) (m : List (α × Nat)) :
    sumCounts (l.foldl (fun m t => incr m t) m) = sumCounts m + l.length := by
  induction l generalizing m with
  | nil => simp
  | cons t rest ih =>
      simp [List.foldl_cons, ih, sumCounts_incr]
      omega

theorem countOf_incr_self {α : Type} [DecidableEq α] (m : List (α × Nat)) (k : α) :
    countOf (incr m k) k = countOf m k + 1 := by
  induction m with
  | nil => simp [incr, countOf]
  | cons e rest ih =>
      obtain ⟨k', c⟩ := e
      by_cases h : k' = k
      · simp [incr, h, countOf]
      · simp [incr, h, countOf, ih]

/-- C4: protocol resolution is a total deterministic function on strings:
"6" goes to "tcp", "17" to "udp", everything else to "icmp"; there is no
error case. -/
theorem resolveProtocol_total :
    resolveProtocol "6" = "tcp" ∧ resolveProtocol "17" = "udp" ∧
      ∀ s : String, s ≠ "6" → s ≠ "17" → resolveProtocol s = "icmp" :=
  ⟨rfl, rfl, fun s h6 h17 => by simp [resolveProtocol, h6, h17]⟩

theorem resolveProtocol_total_witness :
    resolveProtocol "99" = "icmp" :=
  resolveProtocol_total.2.2 "99" (by decide) (by decide)

/-- C5: a flow-log line that is empty after stripping, or that has fewer
than 14 whitespace-separated fields, leaves the loop state of
`parse_flow_logs` unchanged: no increment reaches either frequency table,
and processing continues with the following lines. -/
theorem invalid_line_no_effect (lookup_dict : LookupTable) (verbosity : Nat)
    (st : FlowState) (line : String)
    (h : strip line = "" ∨ (pySplit (strip line)).length < 14) :
    stepFlow lookup_dict verbosity st line = st :=
  stepFlow_skip lookup_dict verbosity st line h

theorem invalid_line_no_effect_witness :
    stepFlow [] 0 ⟨[("a", 1)], [], []⟩ "too short" = ⟨[("a", 1)], [], []⟩ :=
  invalid_line_no_effect [] 0 ⟨[("a", 1)], [], []⟩ "too short" (Or.inr (by decide))

/-- C2: a classified record (non-empty line with at least 14 fields) bumps
the tag table once per tag in its resolved tag list (N tags give exactly N
increments in total) and bumps the port/protocol table exactly once: its own
key goes up by 1 and the table's total number of increments goes up by 1. -/
theorem classified_increments (lookup_dict : LookupTable) (verbosity : Nat)
    (st : FlowState) (line : String)
    (h1 : strip line ≠ "") (h2 : 14 ≤ (pySplit (strip line)).length) :
    sumCounts (stepFlow lookup_dict verbosity st line).tag_counts
        = sumCounts st.tag_counts + (recTags lookup_dict line).length
      ∧ countOf (stepFlow lookup_dict verbosity st line).port_protocol_counts (recKey line)
        = countOf st.port_protocol_counts (recKey line) + 1
      ∧ sumCounts (stepFlow lookup_dict verbosity st line).port_protocol_counts
        = sumCounts st.port_protocol_counts + 1 := by
  have h2' : ¬ (pySplit (strip line)).length < 14 := by omega
  rw [stepFlow_classified lookup_dict verbosity st line h1 h2']
  exact ⟨sumCounts_foldl_incr _ _, countOf_incr_self _ _, sumCounts_incr _ _⟩

theorem classified_increments_witness :
    sumCounts (stepFlow [(("443", "tcp"), ["a", "b"])] 0 ⟨[], [], []⟩
        "x x x x 443 x 6 x x x x x x x").tag_counts
      = sumCounts (FlowState.mk [] [] []).tag_counts
        + (recTags [(("443", "tcp"), ["a", "b"])] "x x x x 443 x 6 x x x x x x x").length
    ∧ countOf (stepFlow [(("443", "tcp"), ["a", "b"])] 0 ⟨[], [], []⟩
        "x x x x 443 x 6 x x x x x x x").port_protocol_counts
        (recKey "x x x x 443 x 6 x x x x x x x")
      = countOf (FlowState.mk [] [] []).port_protocol_counts
          (recKey "x x x x 443 x 6 x x x x x x x") + 1
    ∧ sumCounts (stepFlow [(("443", "tcp"), ["a", "b"])] 0 ⟨[], [], []⟩
        "x x x x 443 x 6 x x x x x x x").port_protocol_counts
      = sumCounts (FlowState.mk [] [] []).port_protocol_counts + 1 :=
  classified_increments [(("443", "tcp"), ["a", "b"])] 0 ⟨[], [], []⟩
    "x x x x 443 x 6 x x x x x x x" (by decide) (by decide)

/-- C3: a classified record whose key is absent from the lookup table
resolves to the single-element tag list `["Untagged"]`, so it bumps the
`"Untagged"` row of the tag table by exactly 1 and its port/protocol row by
exactly 1. -/
theorem untagged_default (lookup_dict : LookupTable) (verbosity : Nat)
    (st : FlowState) (line : String)
    (h1 : strip line ≠ "") (h2 : 14 ≤ (pySplit (strip line)).length)
    (h3 : lookupGet lookup_dict (recKey line) = none) :
    recTags lookup_dict line = ["Untagged"]
      ∧ countOf (stepFlow lookup_dict verbosity st line).tag_counts "Untagged"
        = countOf st.tag_counts "Untagged" + 1
      ∧ countOf (stepFlow lookup_dict verbosity st line).port_protocol_counts (recKey line)
        = countOf st.port_protocol_counts (recKey line) + 1 := by
  have h2' : ¬ (pySplit (strip line)).length < 14 := by omega
  have htags : recTags lookup_dict line = ["Untagged"] := by simp [recTags, h3]
  rw [stepFlow_classified lookup_dict verbosity st line h1 h2']
  refine ⟨htags, ?_, countOf_incr_self _ _⟩
  simp only [htags, List.foldl_cons, List.foldl_nil]
  exact countOf_incr_self _ _

theorem untagged_default_witness :
    recTags [] "x x x x 443 x 17 x x x x x x x" = ["Untagged"]
      ∧ countOf (stepFlow [] 0 ⟨[], [], []⟩
          "x x x x 443 x 17 x x x x x x x").tag_counts "Untagged"
        = countOf (FlowState.mk [] [] []).tag_counts "Untagged" + 1
      ∧ countOf (stepFlow [] 0 ⟨[], [], []⟩
          "x x x x 443 x 17 x x x x x x x").port_protocol_counts
          (recKey "x x x x 443 x 17 x x x x x x x")
        = countOf (FlowState.mk [] [] []).port_protocol_counts
            (recKey "x x x x 443 x 17 x x x x x x x") + 1 :=
  untagged_default [] 0 ⟨[], [], []⟩ "x x x x 443 x 17 x x x x x x x"
    (by decide) (by decide) (by decide)

theorem incr_pos {α : Type} [DecidableEq α] (m : List (α × Nat)) (k : α)
    (h : ∀ e ∈ m, 1 ≤ e.2) : ∀ e ∈ incr m k, 1 ≤ e.2 := by
  induction m with
  | nil =>
      intro e he
      simp [incr] at he
      simp [he]
  | cons f rest ih =>
      obtain ⟨k', c⟩ := f
      intro e he
      by_cases hk : k' = k
      · simp [incr, hk] at he
        rcases he with he | he
        · have := h (k', c) (by simp)
          simp [he]
        · exact h e (by simp [he])
      · simp [incr, hk] at he
        rcases he with he | he
        · exact h e (by simp [he])
        · exact ih (fun e' he' => h e' (by simp [he'])) e he

theorem foldl_incr_pos {α : Type} [DecidableEq α] (l : List α) (m : List (α × Nat))
    (h : ∀ e ∈ m, 1 ≤ e.2) : ∀ e ∈ l.foldl (fun m t => incr m t) m, 1 ≤ e.2 := by
  induction l generalizing m with
  | nil => simpa using h
  | cons t rest ih => exact fun e he => ih (incr m t) (incr_pos m t h) e (by simpa using he)

theorem stepFlow_pos (lookup_dict : LookupTable) (verbosity : Nat) (st : FlowState)
    (line : String)
    (ht : ∀ e ∈ st.tag_counts, 1 ≤ e.2)
    (hp : ∀ e ∈ st.port_protocol_counts, 1 ≤ e.2) :
    (∀ e ∈ (stepFlow lookup_dict verbosity st line).tag_counts, 1 ≤ e.2)
      ∧ ∀ e ∈ (stepFlow lookup_dict verbosity st line).port_protocol_counts, 1 ≤ e.2 := by
  by_cases h1 : strip line = ""
  · rw [stepFlow_skip lookup_dict verbosity st line (Or.inl h1)]
    exact ⟨ht, hp⟩
  · by_cases h2 : (pySplit (strip line)).length < 14
    · rw [stepFlow_skip lookup_dict verbosity st line (Or.inr h2)]
      exact ⟨ht, hp⟩
    · rw [stepFlow_classified lookup_dict verbosity st line h1 h2]
      exact ⟨foldl_incr_pos _ _ ht, incr_pos _ _ hp⟩

theorem foldl_stepFlow_pos (lookup_dict : LookupTable) (verbosity : Nat) :
    ∀ (lines : List String) (st : FlowState),
      (∀ e ∈ st.tag_counts, 1 ≤ e.2) → (∀ e ∈ st.port_protocol_counts, 1 ≤ e.2) →
      (∀ e ∈ (lines.foldl (stepFlow lookup_dict verbosity) st).tag_counts, 1 ≤ e.2)
        ∧ ∀ e ∈ (lines.foldl (stepFlow lookup_dict verbosity) st).port_protocol_counts,
            1 ≤ e.2 := by
  intro lines
  induction lines with
  | nil => exact fun st ht hp => ⟨ht, hp⟩
  | cons line rest ih =>
      intro st ht hp
      have hstep := stepFlow_pos lookup_dict verbosity st line ht hp
      simpa using ih (stepFlow lookup_dict verbosity st line) hstep.1 hstep.2

/-- C10: every key present in either frequency table returned by
`parse_flow_logs` carries a strictly positive count: keys are created only
by an increment, never by a read, so no zero-count row can appear. -/
theorem counts_positive (lines : List String) (lookup_dict : LookupTable)
    (verbosity : Nat) :
    (∀ e ∈ (parse_flow_logs lines lookup_dict verbosity).1, 1 ≤ e.2)
      ∧ ∀ e ∈ (parse_flow_logs lines lookup_dict verbosity).2, 1 ≤ e.2 := by
  have := foldl_stepFlow_pos lookup_dict verbosity lines ⟨[], [], []⟩
    (by simp) (by simp)
  simpa [parse_flow_logs] using this

theorem counts_positive_witness :
    1 ≤ (("Untagged", 1) : String × Nat).2 :=
  (counts_positive ["x x x x 443 x 6 x x x x x x x"] [] 0).1 ("Untagged", 1) (by decide)

theorem stepFlow_counts_congr (lookup_dict : LookupTable) (v1 v2 : Nat)
    (st1 st2 : FlowState) (line : String)
    (ht : st1.tag_counts = st2.tag_counts)
    (hp : st1.port_protocol_counts = st2.port_protocol_counts) :
    (stepFlow lookup_dict v1 st1 line).tag_counts
        = (stepFlow lookup_dict v2 st2 line).tag_counts
      ∧ (stepFlow lookup_dict v1 st1 line).port_protocol_counts
        = (stepFlow lookup_dict v2 st2 line).port_protocol_counts := by
  by_cases h1 : strip line = ""
  · rw [stepFlow_skip lookup_dict v1 st1 line (Or.inl h1),
      stepFlow_skip lookup_dict v2 st2 line (Or.inl h1)]
    exact ⟨ht, hp⟩
  · by_cases h2 : (pySplit (strip line)).length < 14
    · rw [stepFlow_skip lookup_dict v1 st1 line (Or.inr h2),
        stepFlow_skip lookup_dict v2 st2 line (Or.inr h2)]
      exact ⟨ht, hp⟩
    · rw [stepFlow_classified lookup_dict v1 st1 line h1 h2,
        stepFlow_classified lookup_dict v2 st2 line h1 h2]
      exact ⟨by simp [ht], by simp [hp]⟩

theorem foldl_stepFlow_counts_congr (lookup_dict : LookupTable) (v1 v2 : Nat) :
    ∀ (lines : List String) (st1 st2 : FlowState),
      st1.tag_counts = st2.tag_counts →
      st1.port_protocol_counts = st2.port_protocol_counts →
      (lines.foldl (stepFlow lookup_dict v1) st1).tag_counts
          = (lines.foldl (stepFlow lookup_dict v2) st2).tag_counts
        ∧ (lines.foldl (stepFlow lookup_dict v1) st1).port_protocol_counts
          = (lines.foldl (stepFlow lookup_dict v2) st2).port_protocol_counts := by
  intro lines
  induction lines with
  | nil => exact fun st1 st2 ht hp => ⟨ht, hp⟩
  | cons line rest ih =>
      intro st1 st2 ht hp
      have hstep := stepFlow_counts_congr lookup_dict v1 v2 st1 st2 line ht hp
      simpa using ih (stepFlow lookup_dict v1 st1 line) (stepFlow lookup_dict v2 st2 line)
        hstep.1 hstep.2

/-- C8: verbosity does not affect aggregation: two runs of
`parse_flow_logs` on the same lines and lookup table that differ only in the
verbosity argument return equal pairs of frequency tables; the
verbosity-gated diagnostic emission changes only the log. -/
theorem verbosity_independent (lines : List String) (lookup_dict : LookupTable)
    (v1 v2 : Nat) :
    parse_flow_logs lines lookup_dict v1 = parse_flow_logs lines lookup_dict v2 := by
  have h := foldl_stepFlow_counts_congr lookup_dict v1 v2 lines ⟨[], [], []⟩ ⟨[], [], []⟩
    rfl rfl
  simp only [parse_flow_logs]
  exact Prod.ext h.1 h.2

/-- Tag list stored for a key, empty when the key is absent. -/
def tagsOf (tbl : LookupTable) (k : Key) : List String :=
  (lookupGet tbl k).getD []

/-- Tags of the well-formed lookup lines carrying key `k`, in file order. -/
def wellFormedTags (lines : List String) (k : Key) : List String :=
  lines.filterMap (fun line =>
    match parseLookupLine line with
    | .entry k' t => if k' = k then some t else none
    | _ => none)

theorem tagsOf_insertTag_self (tbl : LookupTable) (k : Key) (t : String) :
    tagsOf (insertTag tbl k t) k = tagsOf tbl k ++ [t] := by
  induction tbl with
  | nil => simp [insertTag, tagsOf, lookupGet]
  | cons e rest ih =>
      obtain ⟨k0, ts⟩ := e
      by_cases h : k0 = k
      · subst h
        simp [insertTag, tagsOf, lookupGet]
      · have ih' : (lookupGet (insertTag rest k t) k).getD []
            = (lookupGet rest k).getD [] ++ [t] := by
          simpa [tagsOf] using ih
        simp [insertTag, tagsOf, lookupGet, h, ih']

theorem tagsOf_insertTag_ne (tbl : LookupTable) (k : Key) (t : String) (k' : Key)
    (h : k' ≠ k) : tagsOf (insertTag tbl k t) k' = tagsOf tbl k' := by
  induction tbl with
  | nil =>
      have h2 : ¬ k = k' := fun hh => h hh.symm
      simp [insertTag, tagsOf, lookupGet, h2]
  | cons e rest ih =>
      obtain ⟨k0, ts⟩ := e
      by_cases h0 : k0 = k
      · subst h0
        have h2 : ¬ k0 = k' := fun hh => h hh.symm
        simp [insertTag, tagsOf, lookupGet, h2]
      · have ih' : (lookupGet (insertTag rest k t) k').getD []
            = (lookupGet rest k').getD [] := by
          simpa [tagsOf] using ih
        by_cases h1 : k0 = k' <;> simp [insertTag, tagsOf, lookupGet, h0, h1, ih', h]

theorem loadAux_ok_tagsOf :
    ∀ (lines : List String) (tbl tbl' : LookupTable),
      loadAux lines tbl = .ok tbl' →
      ∀ k, tagsOf tbl' k = tagsOf tbl k ++ wellFormedTags lines k := by
  intro lines
  induction lines with
  | nil =>
      intro tbl tbl' h k
      simp only [loadAux, Except.ok.injEq] at h
      simp [h, wellFormedTags]
  | cons line rest ih =>
      intro tbl tbl' h k
      simp only [loadAux] at h
      rcases hp : parseLookupLine line with _ | ⟨k0, t⟩ | _ <;> rw [hp] at h
      · have := ih tbl tbl' h k
        simpa [wellFormedTags, List.filterMap_cons, hp] using this
      · have hrec := ih (insertTag tbl k0 t) tbl' h k
        by_cases hk : k = k0
        · subst hk
          rw [tagsOf_insertTag_self] at hrec
          simp [wellFormedTags, List.filterMap_cons, hp, hrec]
        · rw [tagsOf_insertTag_ne tbl k0 t k hk] at hrec
          have hk' : ¬ k0 = k := fun hh => hk hh.symm
          simp [wellFormedTags, List.filterMap_cons, hp, hk', hrec]
      · simp at h

/-- C6: lookup-table loading is order-preserving per key: when
`load_lookup_table` succeeds, the tag list stored for every key consists of
the tags of exactly the well-formed lines carrying that key, in file order. -/
theorem load_order_preserving (lines : List String) (tbl : LookupTable)
    (h : load_lookup_table lines = .ok tbl) :
    ∀ k, tagsOf tbl k = wellFormedTags lines k := by
  intro k
  have := loadAux_ok_tagsOf lines [] tbl h k
  simpa [tagsOf, lookupGet] using this

theorem load_order_preserving_witness :
    tagsOf [(("80", "tcp"), ["sv1", "sv2"])] ("80", "tcp")
      = wellFormedTags ["80,tcp,sv1", "no comma line", "80,tcp,sv2"] ("80", "tcp") :=
  load_order_preserving ["80,tcp,sv1", "no comma line", "80,tcp,sv2"]
    [(("80", "tcp"), ["sv1", "sv2"])] rfl ("80", "tcp")

/-- C9: a well-formed lookup line is normalized on all three fields: each is
stripped of surrounding whitespace and lowercased, the tag included, so the
stored key is the lowercased trimmed `(port, protocol)` pair and the stored
tag is the lowercased trimmed tag; tag casing from the file is lost. -/
theorem lookup_fields_normalized (line a b c : String)
    (h1 : strip line ≠ "") (h2 : (strip line).data.contains ',' = true)
    (h3 : splitComma (strip line) = [a, b, c]) :
    load_lookup_table [line]
      = .ok [((lower (strip a), lower (strip b)), [lower (strip c)])] := by
  have hmem : ',' ∈ (strip line).data := by simpa using h2
  have hp : parseLookupLine line
      = .entry (lower (strip a), lower (strip b)) (lower (strip c)) := by
    simp [parseLookupLine, h1, hmem, h3]
  simp [load_lookup_table, loadAux, hp, insertTag]

theorem lookup_fields_normalized_witness :
    load_lookup_table [" 80 , TCP , SV_P1 "] = .ok [(("80", "tcp"), ["sv_p1"])] := by
  have h := lookup_fields_normalized " 80 , TCP , SV_P1 " "80 " " TCP " " SV_P1"
    (by decide) (by decide) (by decide)
  exact h

/-- The claim of C1 as written is false: a non-empty lookup line with a
comma but fewer than two of them is not skipped; the unpacking raises a
`ValueError`, so `load_lookup_table` fails on `["80,tcp"]` instead of
returning a table built from the well-formed lines. -/
theorem malformed_line_raises :
    load_lookup_table ["80,tcp"] = Except.error () := rfl

/-- C1 (amended): a non-empty line containing no comma at all is skipped
without error and does not affect the load of the remaining lines; but a
line containing a comma whose comma-split does not have exactly three
fields makes the load raise a `ValueError` instead of being skipped. -/
theorem comma_free_skipped_else_raises (line : String) (rest : List String)
    (tbl : LookupTable) :
    ((strip line ≠ "" ∧ (strip line).data.contains ',' = false) →
        loadAux (line :: rest) tbl = loadAux rest tbl)
      ∧ (((strip line).data.contains ',' = true ∧ (splitComma (strip line)).length ≠ 3) →
        loadAux (line :: rest) tbl = Except.error ()) := by
  constructor
  · rintro ⟨h1, h2⟩
    have hmem : ',' ∉ (strip line).data := by simpa using h2
    have hp : parseLookupLine line = .skip := by
      simp [parseLookupLine, h1, hmem]
    simp [loadAux, hp]
  · rintro ⟨h2, h3⟩
    have h1 : strip line ≠ "" := by
      intro he
      rw [he] at h2
      simp at h2
    have hp : parseLookupLine line = .err := by
      simp only [parseLookupLine]
      rw [if_neg h1]
      simp only [h2, not_true_eq_false, if_false]
      rcases hL : (splitComma (strip line)).map (fun item => lower (strip item)) with
        _ | ⟨x, _ | ⟨y, _ | ⟨z, _ | ⟨w, l⟩⟩⟩⟩
      · rfl
      · rfl
      · rfl
      · exact absurd (by simpa using congrArg List.length hL) h3
      · rfl
    simp [loadAux, hp]

theorem comma_free_skipped_else_raises_witness :
    (loadAux ["80"] [] = loadAux [] [])
      ∧ loadAux ["a,b"] [] = Except.error () :=
  ⟨(comma_free_skipped_else_raises "80" [] []).1 ⟨by decide, by decide⟩,
   (comma_free_skipped_else_raises "a,b" [] []).2 ⟨by decide, by decide⟩⟩

theorem tagLe_fst_le {a b : String × Nat} (h : tagLe a b) : a.1 ≤ b.1 := by
  rcases (Prod.Lex.le_iff a b).mp h with h' | ⟨h', _⟩
  · exact le_of_lt h'
  · exact le_of_eq h'

/-- C7: `save_results` produces exactly the specified layout, deterministic
in the two tables: the two tag headers, one rendered row per tag item with
the items sorted ascending (by Python tuple comparison, hence ascending in
the tag string), a blank line, the two port/protocol headers, and one
rendered row per port/protocol item sorted ascending lexicographically on
the `(port, protocol)` tuple of strings — not numerically on the port, as
the final conjunct shows on ports "100" and "20". -/
theorem save_results_layout (tc : List (String × Nat)) (pp : List (Key × Nat)) :
    save_results tc pp
        = ["Tag Counts:", "Tag,Count"]
          ++ (List.insertionSort tagLe tc).map renderTagRow
          ++ ["", "Port/Protocol Combination Counts:", "Port,Protocol,Count"]
          ++ (List.insertionSort ppLe pp).map renderPPRow
      ∧ (List.insertionSort tagLe tc).Perm tc
      ∧ List.Sorted tagLe (List.insertionSort tagLe tc)
      ∧ List.Sorted (fun a b : String × Nat => a.1 ≤ b.1) (List.insertionSort tagLe tc)
      ∧ (List.insertionSort ppLe pp).Perm pp
      ∧ List.Sorted ppLe (List.insertionSort ppLe pp)
      ∧ ppLe (("100", "tcp"), 5) (("20", "tcp"), 0) := by
  refine ⟨rfl, List.perm_insertionSort tagLe tc, List.sorted_insertionSort tagLe tc,
    ?_, List.perm_insertionSort ppLe pp, List.sorted_insertionSort ppLe pp, ?_⟩
  · exact (List.sorted_insertionSort tagLe tc).imp (fun h => tagLe_fst_le h)
  · have h1 : ("100" : String) < "20" := by
      rw [String.lt_iff_toList_lt]
      decide
    exact (Prod.Lex.le_iff _ _).mpr (Or.inl ((Prod.Lex.lt_iff _ _).mpr (Or.inl h1)))
